import Mathlib

/-!
Verification of the happychartsv2 backtest-and-improve loop.

Shallow embedding of the Rust sources (`src/lib.rs`, `src/backtest.rs`,
`src/main.rs`).  All `f64` values are modelled as exact rationals `ℚ`;
every comparison appearing in the claims is evaluated far from any
representation boundary, so the rational model agrees with the `f64`
computation on all inputs considered here.
-/

namespace HappyCharts

/-- Enum `Action` from `src/lib.rs`: Long, Short, None. -/
inductive Action where
  | long
  | short
  | none
  deriving DecidableEq, Repr

/-- One chronological candle `[time, open, high, low, close, volume]`
(the array layout produced by `candles_to_array` in `src/lib.rs`; the
labeler reads indices `HIGH = 2`, `LOW = 3`, `CLOSE = 4`). -/
structure Candle where
  time : ℚ
  open_ : ℚ
  high : ℚ
  low : ℚ
  close : ℚ
  volume : ℚ
  deriving DecidableEq, Repr

/-- Constant `LONG_THRESHOLD` from `src/lib.rs` line 13. -/
def LONG_THRESHOLD : ℚ := 1.05

/-- Constant `SHORT_THRESHOLD` from `src/lib.rs` line 14. -/
def SHORT_THRESHOLD : ℚ := 0.95

/-- The per-pair body of `label_candles` (`src/lib.rs` lines 161-178),
parametrised by the two threshold constants. -/
def pairLabelWith (longT shortT : ℚ) (current next : Candle) : Action :=
  let c_close := current.close
  let next_high := next.high
  let next_low := next.low
  let long_cond := next_high ≥ c_close * longT
  let short_cond := next_low ≤ c_close * shortT
  if long_cond then
    if short_cond then Action.short else Action.long
  else
    if short_cond then Action.short else Action.none

/-- The windows(2).map part of `label_candles`: one label per
adjacent pair of candles. -/
def windowLabelsWith (longT shortT : ℚ) : List Candle → List Action
  | current :: next :: rest =>
      pairLabelWith longT shortT current next ::
        windowLabelsWith longT shortT (next :: rest)
  | _ => []

/-- Function `label_candles` with explicit thresholds: the pair labels followed by
the final `None` pushed at `src/lib.rs` line 182. -/
def labelCandlesWith (longT shortT : ℚ) (data : List Candle) : List Action :=
  windowLabelsWith longT shortT data ++ [Action.none]

/-- Function `label_candles` from `src/lib.rs` lines 152-185, using the constants
`LONG_THRESHOLD = 1.05` and `SHORT_THRESHOLD = 0.95` as the source does. -/
def label_candles (data : List Candle) : List Action :=
  labelCandlesWith LONG_THRESHOLD SHORT_THRESHOLD data

/-- The concrete three-candle input of spec scenario 1 (claim C1), in
chronological `[time, open, high, low, close, volume]` layout:
(high, low, close) = (3603.0, 3599.99, 3594.88), (3600.0, 3565.45,
3599.99), (3570.86, 3558.89, 3565.52). -/
def c1Input : List Candle :=
  [ ⟨0, 0, 3603.0, 3599.99, 3594.88, 0⟩,
    ⟨0, 0, 3600.0, 3565.45, 3599.99, 0⟩,
    ⟨0, 0, 3570.86, 3558.89, 3565.52, 0⟩ ]

/-- The input of the unit test of the repository itself,
`test_label_candles_basic_short_scenario` (`src/lib.rs` lines 249-261),
which asserts `label_candles` returns `[Short, Short, None]` on it. -/
def repoTestShortInput : List Candle :=
  [ ⟨0, 0, 3603.0, 3599.99, 3594.88, 100⟩,
    ⟨0, 0, 3600.0, 3594.88 * SHORT_THRESHOLD - 1, 3599.99, 100⟩,
    ⟨0, 0, 3570.86, 3558.89, 3565.52, 100⟩ ]

/-- Structure `PromptRecord` from `src/backtest.rs` lines 22-26: a prompt text and
its accuracy score. -/
structure PromptRecord where
  prompt : String
  score : ℚ
  deriving DecidableEq, Repr

/-- The history-append step of `run_backtest_and_improve`
(`src/backtest.rs` lines 103-113): push the new record, then, when the
ledger holds more than 10 records, keep only the last 10 by dropping from
the front. -/
def append_record (history : List PromptRecord) (r : PromptRecord) :
    List PromptRecord :=
  let history2 := history ++ [r]
  if history2.length > 10 then history2.drop (history2.length - 10)
  else history2

/-- The history-load step of `run_backtest_and_improve`
(`src/backtest.rs` lines 96-101): when the ledger file exists its contents
are deserialized with `unwrap_or_default`, so unparseable contents yield
the empty ledger; when the file does not exist (`contents = none`) the
ledger starts empty.  `parse` stands for `serde_json::from_str`, which is
external to the repository. -/
def load_history (contents : Option String)
    (parse : String → Option (List PromptRecord)) : List PromptRecord :=
  match contents with
  | some data => (parse data).getD []
  | none => []

/-- A minimal JSON value, standing for `serde_json::Value` at the
interface of `query_model_and_compare`. -/
inductive Json where
  | null
  | bool (b : Bool)
  | num (q : ℚ)
  | str (s : String)
  | arr (items : List Json)
  | obj (fields : List (String × Json))
  deriving Repr

/-- Method `Value::get(key)` restricted to objects, as used at `src/backtest.rs`
lines 169-176. -/
def Json.get (j : Json) (key : String) : Option Json :=
  match j with
  | Json.obj fields => (fields.find? (fun p => p.1 == key)).map (fun p => p.2)
  | _ => Option.none

/-- Method `Value::as_str`. -/
def Json.asStr (j : Json) : Option String :=
  match j with
  | Json.str s => some s
  | _ => Option.none

/-- The code-fence stripping of `query_model_and_compare`
(`src/backtest.rs` line 165). -/
def stripFences (response : String) : String :=
  (response.replace "```json" "").replace "```" ""

/-- Function `query_model_and_compare` from `src/backtest.rs` lines 158-187, after
the model collaborator has produced `response`.  `parse` stands for
`serde_json::from_str` (external): `none` models a parse error.  A parse
error or a missing/non-string `action` field is an `Except.error`, exactly
as the `?`-propagated `anyhow` errors in the source; otherwise the action
string is mapped to `Action` with unrecognized values defaulting to
`None`, and the rationale defaults to the empty string. -/
def query_model_and_compare (parse : String → Option Json)
    (response : String) (label : Action) :
    Except String (Action × String × Action) :=
  let clean_response := stripFences response
  match parse clean_response with
  | Option.none => Except.error "Response not valid JSON"
  | some val =>
    match (val.get "action").bind Json.asStr with
    | Option.none => Except.error "Missing action field in response"
    | some action_str =>
      let rationale := (((val.get "rationale").bind Json.asStr).getD "")
      let pred :=
        match action_str with
        | "long" => Action.long
        | "short" => Action.short
        | "none" => Action.none
        | _ => Action.none
      Except.ok (pred, rationale, label)

/-- One iteration of the aggregation loop of `run_backtest_and_improve`
(`src/backtest.rs` lines 76-84) on a successful window result
`(i, pred, rationale, label)`: the accumulator is
`(correct_count, total, failures)`. -/
def step_result (acc : ℕ × ℕ × List (ℕ × Action × Action × String))
    (r : ℕ × Action × String × Action) :
    ℕ × ℕ × List (ℕ × Action × Action × String) :=
  let (correct_count, total, failures) := acc
  let (i, pred, rationale, label) := r
  if pred = label then (correct_count + 1, total + 1, failures)
  else (correct_count, total + 1, failures ++ [(i, pred, label, rationale)])

/-- The accuracy computation of `run_backtest_and_improve`
(`src/backtest.rs` lines 86-90): `correct / total` when `total > 0`,
otherwise `0.0`. -/
def accuracy (correct_count total : ℕ) : ℚ :=
  if total > 0 then (correct_count : ℚ) / (total : ℚ) else 0

/-- The aggregation loop over all completed window results, in completion
order, starting from zero counts and no failures. -/
def tally (results : List (ℕ × Action × String × Action)) :
    ℕ × ℕ × List (ℕ × Action × Action × String) :=
  results.foldl step_result (0, 0, [])

/-- The while-let aggregation loop of `run_backtest_and_improve`
(`src/backtest.rs` lines 72-84), with error propagation:
the raw model response of each window is parsed and compared by
`query_model_and_compare`; the first `Except.error` aborts the whole loop
(`?`), discarding the accumulator. -/
def pass_loop (parse : String → Option Json) :
    List (ℕ × String × Action) →
    (ℕ × ℕ × List (ℕ × Action × Action × String)) →
    Except String (ℕ × ℕ × List (ℕ × Action × Action × String))
  | [], acc => Except.ok acc
  | (i, response, label) :: rest, acc =>
    match query_model_and_compare parse response label with
    | Except.error e => Except.error e
    | Except.ok (pred, rationale, lab) =>
      pass_loop parse rest (step_result acc (i, pred, rationale, lab))

/-- A full evaluation pass over the raw window responses (in completion
order): on success it yields the accuracy and the failure list; the first
malformed response aborts the pass with an error, retaining nothing. -/
def run_pass (parse : String → Option Json)
    (responses : List (ℕ × String × Action)) :
    Except String (ℚ × List (ℕ × Action × Action × String)) :=
  match pass_loop parse responses (0, 0, []) with
  | Except.error e => Except.error e
  | Except.ok (correct_count, total, failures) =>
    Except.ok (accuracy correct_count total, failures)

/-- The file effects at the end of `run_backtest_and_improve`
(`src/backtest.rs` lines 94-133): the ledger is loaded, the
`(base_prompt, accuracy)` record appended (with truncation to 10), and the
ledger persisted; then, only when `failures` is non-empty, the improvement
step runs and its output overwrites the prompt file.  The result is the
persisted ledger and `some improved_prompt` when the prompt file was
written, `none` when it was left untouched. -/
def update_files (base_prompt : String) (acc : ℚ)
    (failures : List (ℕ × Action × Action × String))
    (hist_contents : Option String)
    (parse_hist : String → Option (List PromptRecord))
    (improved_prompt : String) :
    List PromptRecord × Option String :=
  let history := load_history hist_contents parse_hist
  let history := append_record history ⟨base_prompt, acc⟩
  let prompt_write :=
    if failures.isEmpty then Option.none else some improved_prompt
  (history, prompt_write)

/-- The do-while loop of `main` (`src/main.rs` lines 14-25): `scores k`
is the accuracy returned by the `k`-th backtest pass (0-indexed); the
counter is incremented after each pass and the loop continues exactly when
the pass score is below `0.7` and the counter is below `10`.  `fuel`
bounds the recursion; `counter + fuel = 10` is maintained, so fuel never
runs out.  The result is the final counter: the number of passes run. -/
def driver_loop (scores : ℕ → ℚ) : ℕ → ℕ → ℕ
  | 0, counter => counter
  | fuel + 1, counter =>
    let res := scores counter
    let counter2 := counter + 1
    if res < 0.7 ∧ counter2 < 10 then driver_loop scores fuel counter2
    else counter2

/-- The whole loop of `main`: passes run with the counter starting at 0. -/
def run_main (scores : ℕ → ℚ) : ℕ :=
  driver_loop scores 10 0

theorem windowLabelsWith_length (longT shortT : ℚ) :
    ∀ data : List Candle,
      (windowLabelsWith longT shortT data).length = data.length - 1
  | [] => rfl
  | [_] => rfl
  | c :: n :: rest => by
    simp [windowLabelsWith, windowLabelsWith_length longT shortT (n :: rest)]

theorem label_candles_cons_cons (c n : Candle) (rest : List Candle) :
    label_candles (c :: n :: rest) =
      pairLabelWith LONG_THRESHOLD SHORT_THRESHOLD c n ::
        label_candles (n :: rest) := by
  simp [label_candles, labelCandlesWith, windowLabelsWith]

/-- C1 (code_bug evidence): on the concrete three-candle input of spec
scenario 1, `label_candles` — with its actual constants `1.05`/`0.95` —
returns `[None, None, None]`, not the claimed `[Short, Short, None]`;
the same labeling rule with the ±0.3 percent thresholds of the spec
(`1.003`/`0.997`) does return `[Short, Short, None]`; and the repository
unit test `test_label_candles_basic_short_scenario`, which asserts
`[Short, Short, None]` on its input, fails under the current constants. -/
theorem c1_label_candles_code_bug :
    label_candles c1Input = [Action.none, Action.none, Action.none] ∧
    labelCandlesWith 1.003 0.997 c1Input =
      [Action.short, Action.short, Action.none] ∧
    label_candles repoTestShortInput ≠
      [Action.short, Action.short, Action.none] := by
  refine ⟨?_, ?_, ?_⟩
  · norm_num [label_candles, labelCandlesWith, windowLabelsWith,
      pairLabelWith, c1Input, LONG_THRESHOLD, SHORT_THRESHOLD]
  · norm_num [labelCandlesWith, windowLabelsWith, pairLabelWith, c1Input]
  · norm_num [label_candles, labelCandlesWith, windowLabelsWith,
      pairLabelWith, repoTestShortInput, LONG_THRESHOLD, SHORT_THRESHOLD]
    decide

/-- C2: whenever an adjacent pair (current, next) of the input satisfies
both `next.high ≥ current.close * LONG_THRESHOLD` and
`next.low ≤ current.close * SHORT_THRESHOLD`, `label_candles` assigns that
position of that pair the label `Short`: the tie is always broken in favor of
`Short`. -/
theorem c2_tie_break_short (data : List Candle) (i : ℕ) (cur next : Candle)
    (hc : data[i]? = some cur) (hn : data[i + 1]? = some next)
    (hl : next.high ≥ cur.close * LONG_THRESHOLD)
    (hs : next.low ≤ cur.close * SHORT_THRESHOLD) :
    (label_candles data)[i]? = some Action.short := by
  induction data generalizing i with
  | nil => simp at hc
  | cons c tail ih =>
    cases tail with
    | nil =>
      cases i <;> simp at hn
    | cons n rest =>
      rw [label_candles_cons_cons]
      cases i with
      | zero =>
        simp only [List.getElem?_cons_zero, Option.some.injEq] at hc
        simp only [List.getElem?_cons_succ, List.getElem?_cons_zero,
          Option.some.injEq] at hn
        subst hc
        subst hn
        simp only [List.getElem?_cons_zero, Option.some.injEq]
        simp only [pairLabelWith]
        rw [if_pos hl, if_pos hs]
      | succ j =>
        simp only [List.getElem?_cons_succ] at hc hn
        simp only [List.getElem?_cons_succ]
        exact ih j hc (by simpa using hn)

/-- Witness for C2 at a concrete pair triggering both conditions. -/
theorem c2_tie_break_short_witness :
    (label_candles
      [⟨0, 0, 100, 100, 100, 0⟩, ⟨0, 0, 106, 94, 100, 0⟩])[0]? =
        some Action.short :=
  c2_tie_break_short _ 0 ⟨0, 0, 100, 100, 100, 0⟩ ⟨0, 0, 106, 94, 100, 0⟩
    rfl rfl (by norm_num [LONG_THRESHOLD]) (by norm_num [SHORT_THRESHOLD])

/-- C3: on every input series of length at least 1, `label_candles`
returns exactly as many Actions as there are input candles, and the last
returned Action is `None`. -/
theorem c3_length_and_last (data : List Candle) (h : 1 ≤ data.length) :
    (label_candles data).length = data.length ∧
    (label_candles data).getLast? = some Action.none := by
  constructor
  · have hw := windowLabelsWith_length LONG_THRESHOLD SHORT_THRESHOLD data
    simp only [label_candles, labelCandlesWith, List.length_append,
      List.length_singleton, hw]
    omega
  · simp [label_candles, labelCandlesWith]

/-- Witness for C3 on a concrete single-candle series. -/
theorem c3_length_and_last_witness :
    (label_candles [⟨0, 0, 0, 0, 0, 0⟩]).length =
        ([(⟨0, 0, 0, 0, 0, 0⟩ : Candle)]).length ∧
    (label_candles [⟨0, 0, 0, 0, 0, 0⟩]).getLast? = some Action.none :=
  c3_length_and_last [⟨0, 0, 0, 0, 0, 0⟩] (by simp)

theorem drop_append_drop {α : Type} (l t : List α) (d e : ℕ)
    (hd : d ≤ l.length) :
    (l.drop d ++ t).drop e = (l ++ t).drop (d + e) := by
  rw [List.drop_append_eq_append_drop, List.drop_append_eq_append_drop,
    List.drop_drop, List.length_drop]
  have h2 : e - (l.length - d) = d + e - l.length := by omega
  rw [h2]

theorem foldl_append_record_eq (rs : List PromptRecord) :
    ∀ h0 : List PromptRecord, h0.length ≤ 10 →
      List.foldl append_record h0 rs =
        (h0 ++ rs).drop ((h0 ++ rs).length - 10) := by
  induction rs with
  | nil =>
    intro h0 h
    have : h0.length - 10 = 0 := by omega
    simp [this]
  | cons r rest ih =>
    intro h0 h
    simp only [List.foldl_cons]
    by_cases hlen : (h0 ++ [r]).length > 10
    · have hl10 : h0.length = 10 := by
        simp only [List.length_append, List.length_singleton] at hlen
        omega
      have hlen11 : (h0 ++ [r]).length = 11 := by simp [hl10]
      have hrec : append_record h0 r = (h0 ++ [r]).drop 1 := by
        unfold append_record
        rw [if_pos hlen, hlen11]
      rw [hrec, ih _ (by simp [List.length_drop, hlen11])]
      rw [drop_append_drop _ _ 1 _ (by omega)]
      have hassoc : (h0 ++ [r]) ++ rest = h0 ++ r :: rest := by simp
      rw [hassoc]
      congr 1
      simp only [List.length_append, List.length_drop,
        List.length_singleton, List.length_cons, List.length_nil, hl10]
      omega
    · have hrec : append_record h0 r = h0 ++ [r] := by
        simp only [append_record, if_neg hlen]
      rw [hrec, ih _ (by omega)]
      have hassoc : (h0 ++ [r]) ++ rest = h0 ++ r :: rest := by simp
      rw [hassoc]

/-- C4: starting from the empty ledger, after appending any sequence of
records (each append loading the previously persisted ledger), the
persisted ledger is exactly the most recent at-most-10 appended records in
insertion order (the oldest are dropped from the front), so it never holds
more than 10 records. -/
theorem c4_ledger_bounded_fifo (rs : List PromptRecord) :
    List.foldl append_record [] rs = rs.drop (rs.length - 10) ∧
    (List.foldl append_record [] rs).length ≤ 10 := by
  have h := foldl_append_record_eq rs [] (by simp)
  simp only [List.nil_append] at h
  refine ⟨h, ?_⟩
  rw [h, List.length_drop]
  omega

theorem foldl_step_result_le
    (results : List (ℕ × Action × String × Action)) :
    ∀ acc : ℕ × ℕ × List (ℕ × Action × Action × String),
      acc.1 ≤ acc.2.1 →
      (results.foldl step_result acc).1 ≤
        (results.foldl step_result acc).2.1 := by
  induction results with
  | nil => intro acc h; exact h
  | cons r rest ih =>
    intro acc h
    simp only [List.foldl_cons]
    apply ih
    obtain ⟨c, t, f⟩ := acc
    obtain ⟨i, pred, rat, lab⟩ := r
    simp only at h
    simp only [step_result]
    split <;> simp <;> omega

/-- C5: for every completed evaluation pass, the accuracy computed from
the tallied results is `correct / total`, lies in `[0, 1]`, and equals
exactly `0` when the total number of evaluated windows is `0`. -/
theorem c5_accuracy_in_unit_interval
    (results : List (ℕ × Action × String × Action)) :
    0 ≤ accuracy (tally results).1 (tally results).2.1 ∧
    accuracy (tally results).1 (tally results).2.1 ≤ 1 ∧
    ((tally results).2.1 = 0 →
      accuracy (tally results).1 (tally results).2.1 = 0) := by
  have hle : (tally results).1 ≤ (tally results).2.1 :=
    foldl_step_result_le results (0, 0, []) (le_refl 0)
  refine ⟨?_, ?_, ?_⟩
  · unfold accuracy
    split
    · positivity
    · exact le_refl 0
  · unfold accuracy
    split
    · rename_i ht
      have htq : (0 : ℚ) < ((tally results).2.1 : ℚ) := by exact_mod_cast ht
      rw [div_le_one htq]
      exact_mod_cast hle
    · exact zero_le_one
  · intro ht
    simp [accuracy, ht]

/-- Witness for C5 at the empty result list (zero windows evaluated). -/
theorem c5_accuracy_in_unit_interval_witness :
    0 ≤ accuracy (tally []).1 (tally []).2.1 ∧
    accuracy (tally []).1 (tally []).2.1 ≤ 1 ∧
    ((tally []).2.1 = 0 → accuracy (tally []).1 (tally []).2.1 = 0) :=
  c5_accuracy_in_unit_interval []

theorem pass_loop_error_of_mem (parse : String → Option Json)
    (i : ℕ) (response : String) (label : Action)
    (herr : ∃ e,
      query_model_and_compare parse response label = Except.error e) :
    ∀ (responses : List (ℕ × String × Action))
      (acc : ℕ × ℕ × List (ℕ × Action × Action × String)),
      (i, response, label) ∈ responses →
      ∃ e, pass_loop parse responses acc = Except.error e := by
  intro responses
  induction responses with
  | nil => intro acc hmem; simp at hmem
  | cons hd rest ih =>
    intro acc hmem
    obtain ⟨j, resp2, lab2⟩ := hd
    rcases List.mem_cons.mp hmem with heq | hmem2
    · obtain ⟨e, he⟩ := herr
      simp only [Prod.mk.injEq] at heq
      obtain ⟨h1, h2, h3⟩ := heq
      subst h1
      subst h2
      subst h3
      exact ⟨e, by simp [pass_loop, he]⟩
    · cases hq : query_model_and_compare parse resp2 lab2 with
      | error e => exact ⟨e, by simp [pass_loop, hq]⟩
      | ok v =>
        obtain ⟨pred, rationale, lab⟩ := v
        obtain ⟨e, he⟩ :=
          ih (step_result acc (j, pred, rationale, lab)) hmem2
        exact ⟨e, by simp [pass_loop, hq, he]⟩

/-- C6: if the model response of any window, after code-fence stripping, fails
to parse as JSON or parses to a value without a string `action` field,
the whole evaluation pass returns an error: no accuracy and no partial
results are produced. -/
theorem c6_malformed_response_aborts (parse : String → Option Json)
    (responses : List (ℕ × String × Action)) (i : ℕ) (response : String)
    (label : Action)
    (hmem : (i, response, label) ∈ responses)
    (hbad : parse (stripFences response) = Option.none ∨
      ∃ val, parse (stripFences response) = some val ∧
        (val.get "action").bind Json.asStr = Option.none) :
    ∃ e, run_pass parse responses = Except.error e := by
  have herr : ∃ e,
      query_model_and_compare parse response label = Except.error e := by
    rcases hbad with h | ⟨val, hv, ha⟩
    · exact ⟨"Response not valid JSON",
        by simp [query_model_and_compare, h]⟩
    · exact ⟨"Missing action field in response",
        by simp [query_model_and_compare, hv, ha]⟩
  obtain ⟨e, he⟩ :=
    pass_loop_error_of_mem parse i response label herr responses
      (0, 0, []) hmem
  exact ⟨e, by simp [run_pass, he]⟩

/-- Witness for C6: a single window whose response does not parse. -/
theorem c6_malformed_response_aborts_witness :
    ∃ e, run_pass (fun _ => Option.none) [(24, "bad", Action.none)] =
      Except.error e :=
  c6_malformed_response_aborts (fun _ => Option.none)
    [(24, "bad", Action.none)] 24 "bad" Action.none (by simp) (Or.inl rfl)

/-- C7: when the failure set of a completed pass is empty, the prompt
file is not written (the improvement step does not run); only the ledger
is updated. -/
theorem c7_no_failures_prompt_untouched (base_prompt : String) (acc : ℚ)
    (failures : List (ℕ × Action × Action × String))
    (hist_contents : Option String)
    (parse_hist : String → Option (List PromptRecord))
    (improved_prompt : String) (hf : failures = []) :
    (update_files base_prompt acc failures hist_contents parse_hist
      improved_prompt).2 = Option.none := by
  subst hf
  simp [update_files]

/-- Witness for C7 at concrete arguments with an empty failure set. -/
theorem c7_no_failures_prompt_untouched_witness :
    (update_files "base" 1 [] Option.none (fun _ => Option.none)
      "improved").2 = Option.none :=
  c7_no_failures_prompt_untouched "base" 1 [] Option.none
    (fun _ => Option.none) "improved" rfl

theorem driver_loop_spec (scores : ℕ → ℚ) :
    ∀ fuel counter : ℕ, counter + fuel = 10 → 1 ≤ fuel →
      counter + 1 ≤ driver_loop scores fuel counter ∧
      driver_loop scores fuel counter ≤ 10 ∧
      (∀ i, counter ≤ i → i + 1 < driver_loop scores fuel counter →
        scores i < 0.7) ∧
      (0.7 ≤ scores (driver_loop scores fuel counter - 1) ∨
        driver_loop scores fuel counter = 10) := by
  intro fuel
  induction fuel with
  | zero => intro counter hsum hfuel; omega
  | succ f ih =>
    intro counter hsum _
    simp only [driver_loop]
    by_cases hcond : scores counter < 0.7 ∧ counter + 1 < 10
    · rw [if_pos hcond]
      have hf1 : 1 ≤ f := by omega
      obtain ⟨ih1, ih2, ih3, ih4⟩ := ih (counter + 1) (by omega) hf1
      refine ⟨by omega, ih2, ?_, ih4⟩
      intro i hci hlt
      by_cases hic : i = counter
      · subst hic
        exact hcond.1
      · exact ih3 i (by omega) hlt
    · rw [if_neg hcond]
      refine ⟨le_refl _, by omega, by omega, ?_⟩
      rcases Decidable.not_and_iff_or_not.mp hcond with h | h
      · left
        simpa using le_of_not_lt h
      · right
        omega

/-- C8: the convergence driver in `main` runs at least one and at most 10
passes; every pass except the last scored below the 0.7 threshold (so no
pass ever follows one that reached the threshold), and the last pass
either reached the threshold or was the 10th (the iteration cap),
whichever came first. -/
theorem c8_driver_termination (scores : ℕ → ℚ) :
    1 ≤ run_main scores ∧ run_main scores ≤ 10 ∧
    (∀ i, i + 1 < run_main scores → scores i < 0.7) ∧
    (0.7 ≤ scores (run_main scores - 1) ∨ run_main scores = 10) := by
  have h := driver_loop_spec scores 10 0 (by omega) (by omega)
  simp only [run_main]
  exact ⟨h.1, h.2.1, fun i hi => h.2.2.1 i (Nat.zero_le i) hi, h.2.2.2⟩

/-- Witness for C8 at the constant-zero score sequence. -/
theorem c8_driver_termination_witness :
    1 ≤ run_main (fun _ => 0) ∧ run_main (fun _ => 0) ≤ 10 ∧
    (∀ i, i + 1 < run_main (fun _ => 0) → (fun _ => (0 : ℚ)) i < 0.7) ∧
    (0.7 ≤ (fun _ => (0 : ℚ)) (run_main (fun _ => 0) - 1) ∨
      run_main (fun _ => 0) = 10) :=
  c8_driver_termination (fun _ => 0)

/-- C9: when the ledger file exists but its contents fail to deserialize,
the load step yields the empty ledger (no error is raised: the source
uses `unwrap_or_default`), and the append persists a valid ledger holding
exactly the newly appended record. -/
theorem c9_corrupt_ledger_recovered (data : String)
    (parse : String → Option (List PromptRecord)) (r : PromptRecord)
    (hcorrupt : parse data = Option.none) :
    load_history (some data) parse = [] ∧
    append_record (load_history (some data) parse) r = [r] := by
  refine ⟨by simp [load_history, hcorrupt], ?_⟩
  simp [load_history, append_record, hcorrupt]

/-- Witness for C9 at concrete corrupt contents. -/
theorem c9_corrupt_ledger_recovered_witness :
    load_history (some "garbage") (fun _ => Option.none) = [] ∧
    append_record (load_history (some "garbage") (fun _ => Option.none))
      ⟨"p", 0⟩ = [⟨"p", 0⟩] :=
  c9_corrupt_ledger_recovered "garbage" (fun _ => Option.none) ⟨"p", 0⟩ rfl

/-- C10: on the empty input series, `label_candles` returns the
one-element sequence `[None]`, so the output length is `1`, not the input
length `0`. -/
theorem c10_label_candles_empty :
    label_candles [] = [Action.none] ∧ (label_candles []).length = 1 := by
  constructor <;> rfl

end HappyCharts
